import Mathlib

/-!
Shallow embedding of the `SponExpander` accordion class from `src/main.js`
(magicspon/spon-expander).

The embedding models the pane registry, the per-pane two-state click machine,
the `expand` / `collapse` transition orchestrators, the `onEnd` completion
callback, the `clickHandle` activation entry point (including the
`closeOthers` exclusivity branch), and a cooperative event-loop scheduler in
which each started animation is a pending completion that fires later.

Modelling conventions:
* DOM elements are reduced to the fields the class reads or writes: inline
  style strings (empty string = cleared), boolean-stringified aria
  attributes (as `Option Bool`, `none` = attribute absent), and membership
  of the configured active class in the element's class list.
* `getBoundingClientRect().height` is an external measurement collaborator;
  it is modelled as a per-target `rect : Option Nat` field, where `none`
  models the collaborator failing (a thrown `MeasurementError`).  Heights
  are integer pixel counts, so `Math.round` is the identity.
* The easing option is an opaque function reference, modelled by `EasingRef`.
* A thrown JavaScript exception is modelled by a `threw` flag together with
  the state as mutated up to the throw point; nothing after the throw runs.
* `this.current` holds a reference to a pane object; since the pane list is
  only ever updated in place (never restructured), the reference is embedded
  as the pane's position in the list.
-/

/-- Logical pane state: the JS strings used by the per-pane table
`machine = (open maps CLICK to close, close maps CLICK to open)`. -/
inductive PaneState where
  | «open» : PaneState
  | close : PaneState
deriving DecidableEq, Repr

/-- The per-pane transition table `item.machine[item.state].CLICK` from
`createPanels`: every pane carries the same literal table, embedded as this
function. -/
def machineClick : PaneState → PaneState
  | PaneState.«open» => PaneState.close
  | PaneState.close => PaneState.«open»

/-- The trigger button element: the attributes and class-list membership the
class reads or writes. -/
structure ButtonEl where
  ariaExpanded : Option Bool
  ariaSelected : Option Bool
  hasActiveClass : Bool
deriving DecidableEq, Repr

/-- The content target element: inline style fields (empty string means the
override is cleared), aria-hidden, active-class membership, and the height
the measurement collaborator (`getBoundingClientRect`) would report
(`none` = measurement failure). -/
structure TargetEl where
  styleHeight : String
  styleDisplay : String
  styleWillChange : String
  ariaHidden : Option Bool
  hasActiveClass : Bool
  rect : Option Nat
deriving DecidableEq, Repr

/-- One pane record as built by `createPanels`.  The source's constant
`machine` field is embedded as the function `machineClick`. -/
structure Pane where
  button : ButtonEl
  target : TargetEl
  index : Nat
  «open» : Bool
  isRunning : Bool
  state : PaneState
deriving DecidableEq, Repr

/-- An opaque reference to the supplied easing function. -/
structure EasingRef where
  id : Nat
deriving DecidableEq, Repr

/-- The configuration options the core logic reads. -/
structure Config where
  closeOthers : Bool
  duration : Nat
  easing : EasingRef
deriving DecidableEq, Repr

/-- Payload of an emitted event: the source emits
`(name, (pane, index, panes))` where `panes` is the registry at emission
time and `pane` the pane object's value at emission time. -/
structure Event where
  name : String
  pane : Pane
  index : Nat
  panes : List Pane
deriving DecidableEq, Repr

/-- An animation request handed to the `fromTo` animator: start and end
values, duration, easing reference, and the pane index whose target's
height is driven. -/
structure AnimRequest where
  start : Nat
  «end» : Nat
  duration : Nat
  easing : EasingRef
  target : Nat
deriving DecidableEq, Repr

/-- Which completion callback a started animation will fire. -/
inductive CompKind where
  | expandK : CompKind
  | collapseK : CompKind
deriving DecidableEq, Repr

/-- A pending animation completion: the `.then` continuation of a started
`fromTo` animation, with the pane index it closes over. -/
structure Completion where
  kind : CompKind
  index : Nat
deriving DecidableEq, Repr

/-- Result of the synchronous part of a transition: the updated registry,
events emitted, animations started (with their pending completions), and
whether a JS exception escaped. -/
structure SyncResult where
  panes : List Pane
  events : List Event
  anims : List AnimRequest
  comps : List Completion
  threw : Bool
deriving DecidableEq, Repr

/-- The `onEnd` completion helper: clears the three inline style overrides,
clears `isRunning`, and mirrors `pane.open` into the aria attributes. -/
def onEnd (pane : Pane) : Pane :=
  { pane with
    target := { pane.target with
      styleWillChange := ""
      styleHeight := ""
      styleDisplay := ""
      ariaHidden := some (!pane.«open») }
    button := { pane.button with
      ariaExpanded := some pane.«open»
      ariaSelected := some pane.«open» }
    isRunning := false }

/-- The synchronous body of `expand(index)`: guarded by `isRunning`; sets
`display:block`, measures, zeroes the height, marks running and open, emits
`spon:open`, and starts the animation from 0 to the measured height.  An
out-of-range index models the `TypeError` of reading `isRunning` off
`undefined`; a failed measurement models `getBoundingClientRect` throwing,
leaving the state as mutated up to that point. -/
def expandSync (cfg : Config) (panes : List Pane) (index : Nat) : SyncResult :=
  match panes[index]? with
  | none => { panes := panes, events := [], anims := [], comps := [], threw := true }
  | some pane =>
    if pane.isRunning then
      { panes := panes, events := [], anims := [], comps := [], threw := false }
    else
      let pane1 := { pane with target := { pane.target with styleDisplay := "block" } }
      match pane1.target.rect with
      | none =>
        { panes := panes.set index pane1, events := [], anims := [], comps := [], threw := true }
      | some height =>
        let pane2 := { pane1 with
          target := { pane1.target with styleHeight := "0", styleWillChange := "height" }
          isRunning := true
          «open» := true }
        let panes2 := panes.set index pane2
        { panes := panes2
          events := [{ name := "spon:open", pane := pane2, index := index, panes := panes2 }]
          anims := [{ start := 0, «end» := height, duration := cfg.duration,
                      easing := cfg.easing, target := index }]
          comps := [{ kind := CompKind.expandK, index := index }]
          threw := false }

/-- The `.then` continuation of an expand animation: `onEnd`, add the active
classes, emit `spon:opened`. -/
def expandComplete (panes : List Pane) (index : Nat) : SyncResult :=
  match panes[index]? with
  | none => { panes := panes, events := [], anims := [], comps := [], threw := true }
  | some pane =>
    let pane1 := onEnd pane
    let pane2 := { pane1 with
      button := { pane1.button with hasActiveClass := true }
      target := { pane1.target with hasActiveClass := true } }
    let panes2 := panes.set index pane2
    { panes := panes2
      events := [{ name := "spon:opened", pane := pane2, index := index, panes := panes2 }]
      anims := [], comps := [], threw := false }

/-- The synchronous body of `collapse(index)`: guarded by `isRunning`; clears
`open`, measures the rendered height, pins the height style, emits
`spon:close`, marks running, and starts the animation from the measured
height down to 0.  Note the source order: `open` is cleared before the
measurement, and `isRunning` is set only after the event is emitted. -/
def collapseSync (cfg : Config) (panes : List Pane) (index : Nat) : SyncResult :=
  match panes[index]? with
  | none => { panes := panes, events := [], anims := [], comps := [], threw := true }
  | some pane =>
    if pane.isRunning then
      { panes := panes, events := [], anims := [], comps := [], threw := false }
    else
      let pane1 := { pane with «open» := false }
      match pane1.target.rect with
      | none =>
        { panes := panes.set index pane1, events := [], anims := [], comps := [], threw := true }
      | some height =>
        let pane2 := { pane1 with
          target := { pane1.target with
            styleHeight := toString height ++ "px"
            styleWillChange := "height" } }
        let panes2 := panes.set index pane2
        let ev : Event := { name := "spon:close", pane := pane2, index := index, panes := panes2 }
        let pane3 := { pane2 with isRunning := true }
        let panes3 := panes2.set index pane3
        { panes := panes3
          events := [ev]
          anims := [{ start := height, «end» := 0, duration := cfg.duration,
                      easing := cfg.easing, target := index }]
          comps := [{ kind := CompKind.collapseK, index := index }]
          threw := false }

/-- The `.then` continuation of a collapse animation: `onEnd`, remove the
active classes, emit `spon:closed`. -/
def collapseComplete (panes : List Pane) (index : Nat) : SyncResult :=
  match panes[index]? with
  | none => { panes := panes, events := [], anims := [], comps := [], threw := true }
  | some pane =>
    let pane1 := onEnd pane
    let pane2 := { pane1 with
      button := { pane1.button with hasActiveClass := false }
      target := { pane1.target with hasActiveClass := false } }
    let panes2 := panes.set index pane2
    { panes := panes2
      events := [{ name := "spon:closed", pane := pane2, index := index, panes := panes2 }]
      anims := [], comps := [], threw := false }

/-- Result of one `clickHandle` invocation: the updated registry, the new
`current` reference (as a position), the events emitted, the animations
started with their completions, and whether an exception escaped. -/
structure ClickResult where
  panes : List Pane
  current : Option Nat
  events : List Event
  anims : List AnimRequest
  comps : List Completion
  threw : Bool
deriving DecidableEq, Repr

/-- The `closeOthers` branch of `clickHandle`, run on the registry after the
clicked pane's state has been advanced: if `closeOthers` is set and
`current` names a pane whose `index` field differs from the clicked index,
advance that pane's state through the machine too and issue
`collapse(current.index)`; otherwise do nothing. -/
def clickBranch (cfg : Config) (panes1 : List Pane) (current : Option Nat)
    (index : Nat) : SyncResult :=
  match current with
  | some ci =>
    match panes1[ci]? with
    | some cur =>
      if cfg.closeOthers && (cur.index != index) then
        let cur1 := { cur with state := machineClick cur.state }
        let panes' := panes1.set ci cur1
        collapseSync cfg panes' cur.index
      else
        { panes := panes1, events := [], anims := [], comps := [], threw := false }
    | none =>
      { panes := panes1, events := [], anims := [], comps := [], threw := false }
  | none =>
    { panes := panes1, events := [], anims := [], comps := [], threw := false }

/-- The tail of `clickHandle` after the `closeOthers` branch: dispatch
`expand` or `collapse` on the clicked index according to the re-read state,
then reassign `current`; a pending exception skips the dispatch. -/
def clickDispatch (cfg : Config) (branch : SyncResult) (current : Option Nat)
    (index : Nat) : ClickResult :=
  if branch.threw then
    { panes := branch.panes, current := current, events := branch.events,
      anims := branch.anims, comps := branch.comps, threw := true }
  else
    match branch.panes[index]? with
    | none =>
      { panes := branch.panes, current := current, events := branch.events,
        anims := branch.anims, comps := branch.comps, threw := true }
    | some item2 =>
      let r :=
        if item2.state = PaneState.«open» then expandSync cfg branch.panes index
        else collapseSync cfg branch.panes index
      { panes := r.panes
        current := if r.threw then current else some index
        events := branch.events ++ r.events
        anims := branch.anims ++ r.anims
        comps := branch.comps ++ r.comps
        threw := r.threw }

/-- The whole `clickHandle` body: advance the clicked pane's state through
the machine first, then the `closeOthers` branch, then the dispatch. -/
def clickHandle (cfg : Config) (panes : List Pane) (current : Option Nat)
    (index : Nat) : ClickResult :=
  match panes[index]? with
  | none =>
    { panes := panes, current := current, events := [], anims := [], comps := [], threw := true }
  | some item =>
    let item1 := { item with state := machineClick item.state }
    let panes1 := panes.set index item1
    clickDispatch cfg (clickBranch cfg panes1 current index) current index

/-- The whole widget plus scheduler state: configuration, registry, the
`current` reference, the FIFO queue of pending animation completions, the
log of all events emitted so far, and whether an exception has escaped. -/
structure World where
  cfg : Config
  panes : List Pane
  current : Option Nat
  pending : List Completion
  events : List Event
  threw : Bool
deriving DecidableEq, Repr

/-- Scheduler step: a user click on the trigger of pane `i`. -/
def stepClick (w : World) (i : Nat) : World :=
  let r := clickHandle w.cfg w.panes w.current i
  { w with panes := r.panes, current := r.current,
           pending := w.pending ++ r.comps,
           events := w.events ++ r.events,
           threw := w.threw || r.threw }

/-- Scheduler step: the oldest in-flight animation finishes and its `.then`
continuation runs. -/
def stepComplete (w : World) : World :=
  match w.pending with
  | [] => w
  | c :: rest =>
    let r :=
      match c.kind with
      | CompKind.expandK => expandComplete w.panes c.index
      | CompKind.collapseK => collapseComplete w.panes c.index
    { w with panes := r.panes, pending := rest,
             events := w.events ++ r.events,
             threw := w.threw || r.threw }

/-- An interleaving of user activations and animation completions. -/
inductive WAction where
  | click : Nat → WAction
  | done : WAction
deriving DecidableEq, Repr

/-- Run a sequence of scheduler steps. -/
def runW (w : World) : List WAction → World
  | [] => w
  | WAction.click i :: rest => runW (stepClick w i) rest
  | WAction.done :: rest => runW (stepComplete w) rest

/-- One pane as built by `createPanels`: the initial open flag is
`open || index === activeIndex`, mirrored into the aria attributes and the
active classes; `state` is the matching machine state. -/
def createPane (openOpt : Bool) (activeIndex : Option Nat) (rect : Option Nat)
    (index : Nat) : Pane :=
  let st := openOpt || decide (activeIndex = some index)
  { button := { ariaExpanded := some st, ariaSelected := some st, hasActiveClass := st }
    target := { styleHeight := "", styleDisplay := "", styleWillChange := ""
                ariaHidden := some (!st), hasActiveClass := st, rect := rect }
    index := index
    «open» := st
    isRunning := false
    state := if st then PaneState.«open» else PaneState.close }

/-- The registry built by `createPanels` from the discovered triggers, one
measurement environment value per target. -/
def createPanels (openOpt : Bool) (activeIndex : Option Nat)
    (rects : List (Option Nat)) : List Pane :=
  rects.enum.map (fun p => createPane openOpt activeIndex p.2 p.1)

/-- A freshly initialised widget: `current` is set by `createPanels` exactly
when `activeIndex` names a discovered pane. -/
def initWorld (cfg : Config) (openOpt : Bool) (activeIndex : Option Nat)
    (rects : List (Option Nat)) : World :=
  { cfg := cfg
    panes := createPanels openOpt activeIndex rects
    current :=
      match activeIndex with
      | some a => if a < rects.length then some a else none
      | none => none
    pending := []
    events := []
    threw := false }

/-- Number of panes whose `open` flag is set. -/
def openCount (panes : List Pane) : Nat :=
  (panes.filter (fun p => p.«open»)).length

/-- Atomic observable effects of a transition, for ordering properties.
Clearing an inline style (assignment of the empty string) is a distinct
constructor from setting it to a value. -/
inductive Act where
  | setStyleDisplay : Nat → String → Act
  | measureRect : Nat → Act
  | setStyleHeight : Nat → String → Act
  | setStyleWillChange : Nat → String → Act
  | clearStyleDisplay : Nat → Act
  | clearStyleHeight : Nat → Act
  | clearStyleWillChange : Nat → Act
  | setIsRunning : Nat → Bool → Act
  | setOpenFlag : Nat → Bool → Act
  | emitEv : String → Nat → Act
  | animStart : Nat → Nat → Nat → Nat → Act
  | setAriaExpanded : Nat → Bool → Act
  | setAriaSelected : Nat → Bool → Act
  | setAriaHidden : Nat → Bool → Act
  | addClassBtn : Nat → Act
  | addClassTarget : Nat → Act
  | removeClassBtn : Nat → Act
  | removeClassTarget : Nat → Act
deriving DecidableEq, Repr

/-- Effect order of the `onEnd` body: clear the three style overrides, clear
`isRunning`, write the three aria attributes from `open`. -/
def onEndTrace (i : Nat) (openv : Bool) : List Act :=
  [ Act.clearStyleWillChange i, Act.clearStyleHeight i, Act.clearStyleDisplay i,
    Act.setIsRunning i false, Act.setAriaExpanded i openv,
    Act.setAriaSelected i openv, Act.setAriaHidden i (!openv) ]

/-- Effect order of the synchronous body of `expand(i)` when the pane is
idle and the measurement yields `h`. -/
def expandSyncTrace (dur i h : Nat) : List Act :=
  [ Act.setStyleDisplay i "block", Act.measureRect i,
    Act.setStyleHeight i "0", Act.setStyleWillChange i "height",
    Act.setIsRunning i true, Act.setOpenFlag i true,
    Act.emitEv "spon:open" i, Act.animStart i 0 h dur ]

/-- Effect order of the expand completion continuation (`open` is true at
completion time). -/
def expandCompleteTrace (i : Nat) : List Act :=
  onEndTrace i true ++ [ Act.addClassBtn i, Act.addClassTarget i, Act.emitEv "spon:opened" i ]

/-- The whole effect order of one expand transition that actually runs. -/
def expandFullTrace (dur i h : Nat) : List Act :=
  expandSyncTrace dur i h ++ expandCompleteTrace i

/-- Effect order of the synchronous body of `collapse(i)` when the pane is
idle and the measurement yields `h`: `open` cleared first, event emitted
before `isRunning` is set, animation last. -/
def collapseSyncTrace (dur i h : Nat) : List Act :=
  [ Act.setOpenFlag i false, Act.measureRect i,
    Act.setStyleHeight i (toString h ++ "px"), Act.setStyleWillChange i "height",
    Act.emitEv "spon:close" i, Act.setIsRunning i true,
    Act.animStart i h 0 dur ]

/-- Effect order of the collapse completion continuation (`open` is false at
completion time). -/
def collapseCompleteTrace (i : Nat) : List Act :=
  onEndTrace i false ++ [ Act.removeClassBtn i, Act.removeClassTarget i, Act.emitEv "spon:closed" i ]

/-- The whole effect order of one collapse transition that actually runs. -/
def collapseFullTrace (dur i h : Nat) : List Act :=
  collapseSyncTrace dur i h ++ collapseCompleteTrace i

/-- Suffix of a trace strictly after the first action satisfying `q`
(empty if no action satisfies `q`). -/
def afterFirst (q : Act → Bool) : List Act → List Act
  | [] => []
  | a :: rest => if q a then rest else afterFirst q rest

/-- Every `p`-action occurs strictly before the first `q`-action, and both
kinds of action do occur. -/
def allBeforeFirst (p q : Act → Bool) (tr : List Act) : Bool :=
  tr.any p && tr.any q && !((afterFirst q tr).any p)

/-- Recognise the pre-events of the two transitions. -/
def isPreEmit : Act → Bool
  | Act.emitEv n _ => n == "spon:open" || n == "spon:close"
  | _ => false

/-- Recognise the post-events of the two transitions. -/
def isPostEmit : Act → Bool
  | Act.emitEv n _ => n == "spon:opened" || n == "spon:closed"
  | _ => false

/-- Recognise the start of an animation. -/
def isAnimStart : Act → Bool
  | Act.animStart _ _ _ _ => true
  | _ => false

/-- Recognise the terminal attribute restoration actions: the style-override
clears and the aria attribute writes done by `onEnd`. -/
def isRestore : Act → Bool
  | Act.clearStyleWillChange _ => true
  | Act.clearStyleHeight _ => true
  | Act.clearStyleDisplay _ => true
  | Act.setAriaExpanded _ _ => true
  | Act.setAriaSelected _ _ => true
  | Act.setAriaHidden _ _ => true
  | _ => false

/-- An emitted event name is one of the four `spon:`-prefixed names. -/
def sponNamed (e : Event) : Bool :=
  ["spon:open", "spon:opened", "spon:close", "spon:closed"].contains e.name

/-- Concrete easing reference for concrete runs. -/
def easingW : EasingRef := { id := 0 }

/-- Concrete configuration, `closeOthers` off. -/
def cfgW : Config := { closeOthers := false, duration := 300, easing := easingW }

/-- Concrete configuration, `closeOthers` on. -/
def cfgCO : Config := { closeOthers := true, duration := 300, easing := easingW }

/-- A one-pane widget, pane measurable at 5px. -/
def w1 : World := initWorld cfgW false none [some 5]

/-- A two-pane widget with `closeOthers` on, both panes measurable. -/
def w2 : World := initWorld cfgCO false none [some 5, some 7]

/-- A concrete idle pane used to instantiate hypothesis-bearing theorems. -/
def paneIdle : Pane := createPane false none (some 5) 0

/-- A concrete pane whose animation is in flight. -/
def paneBusy : Pane := { paneIdle with isRunning := true, «open» := true }

/-- A concrete idle pane whose measurement collaborator fails. -/
def paneNoRect : Pane := createPane false none none 0

/-- C10: `onEnd` clears the pane's inline will-change, height and display
overrides, clears `isRunning`, and writes `aria-expanded` and
`aria-selected` equal to `pane.open` and `aria-hidden` to its negation, so
terminal accessibility state mirrors `pane.open`. -/
theorem onEnd_restores_and_mirrors_open (pane : Pane) :
    (onEnd pane).target.styleWillChange = "" ∧
    (onEnd pane).target.styleHeight = "" ∧
    (onEnd pane).target.styleDisplay = "" ∧
    (onEnd pane).isRunning = false ∧
    (onEnd pane).button.ariaExpanded = some pane.«open» ∧
    (onEnd pane).button.ariaSelected = some pane.«open» ∧
    (onEnd pane).target.ariaHidden = some (!pane.«open») := by
  simp [onEnd]

/-- C1: on a pane whose animation is in flight (`isRunning = true`), both
`expand` and `collapse` are complete no-ops: the registry is returned
unchanged (no pane field mutated), no event is emitted, no animation is
started, and nothing is thrown. -/
theorem running_pane_click_is_noop (cfg : Config) (panes : List Pane) (i : Nat)
    (pane : Pane) (hi : panes[i]? = some pane) (hrun : pane.isRunning = true) :
    expandSync cfg panes i =
      { panes := panes, events := [], anims := [], comps := [], threw := false } ∧
    collapseSync cfg panes i =
      { panes := panes, events := [], anims := [], comps := [], threw := false } := by
  constructor
  · unfold expandSync; rw [hi]; simp [hrun]
  · unfold collapseSync; rw [hi]; simp [hrun]

/-- Witness for C1 at a concrete busy pane. -/
theorem running_pane_click_is_noop_witness :
    expandSync cfgW [paneBusy] 0 =
      { panes := [paneBusy], events := [], anims := [], comps := [], threw := false } ∧
    collapseSync cfgW [paneBusy] 0 =
      { panes := [paneBusy], events := [], anims := [], comps := [], threw := false } :=
  running_pane_click_is_noop cfgW [paneBusy] 0 paneBusy rfl rfl

/-- C4: in the effect order of every transition that actually runs, the
pre-event is emitted strictly before the animation starts, and the
post-event is emitted strictly after every terminal attribute restoration
(style-override clears and aria writes). -/
theorem pre_before_anim_and_restore_before_post (dur i h : Nat) :
    (allBeforeFirst isPreEmit isAnimStart (expandFullTrace dur i h) = true ∧
     allBeforeFirst isRestore isPostEmit (expandFullTrace dur i h) = true) ∧
    (allBeforeFirst isPreEmit isAnimStart (collapseFullTrace dur i h) = true ∧
     allBeforeFirst isRestore isPostEmit (collapseFullTrace dur i h) = true) := by
  exact ⟨⟨rfl, rfl⟩, ⟨rfl, rfl⟩⟩

/-- C6: when the measurement collaborator fails during `expand(i)` on an
idle pane, the transition aborts by throwing: `isRunning`, `open` and
`state` keep their pre-transition values, no event of any kind is emitted,
no animation is started, and the inline height override is untouched. -/
theorem measurement_failure_aborts_expand (cfg : Config) (panes : List Pane)
    (i : Nat) (pane : Pane) (hi : panes[i]? = some pane)
    (hrun : pane.isRunning = false) (hm : pane.target.rect = none) :
    (expandSync cfg panes i).threw = true ∧
    (expandSync cfg panes i).events = [] ∧
    (expandSync cfg panes i).anims = [] ∧
    ∃ pane1, (expandSync cfg panes i).panes[i]? = some pane1 ∧
      pane1.isRunning = pane.isRunning ∧
      pane1.«open» = pane.«open» ∧
      pane1.state = pane.state ∧
      pane1.target.styleHeight = pane.target.styleHeight := by
  have hlen : i < panes.length := by
    rcases List.getElem?_eq_some.mp hi with ⟨hlt, _⟩
    exact hlt
  have hres : expandSync cfg panes i =
      { panes := panes.set i { pane with target := { pane.target with styleDisplay := "block" } },
        events := [], anims := [], comps := [], threw := true } := by
    unfold expandSync
    rw [hi]
    simp [hrun, hm]
  rw [hres]
  refine ⟨rfl, rfl, rfl, ?_⟩
  exact ⟨_, List.getElem?_set_self hlen, rfl, rfl, rfl, rfl⟩

/-- Witness for C6 at a concrete pane with a failing measurement. -/
theorem measurement_failure_aborts_expand_witness :
    (expandSync cfgW [paneNoRect] 0).threw = true ∧
    (expandSync cfgW [paneNoRect] 0).events = [] ∧
    (expandSync cfgW [paneNoRect] 0).anims = [] ∧
    ∃ pane1, (expandSync cfgW [paneNoRect] 0).panes[0]? = some pane1 ∧
      pane1.isRunning = paneNoRect.isRunning ∧
      pane1.«open» = paneNoRect.«open» ∧
      pane1.state = paneNoRect.state ∧
      pane1.target.styleHeight = paneNoRect.target.styleHeight :=
  measurement_failure_aborts_expand cfgW [paneNoRect] 0 paneNoRect rfl rfl rfl

/-- Every event `expandSync` emits carries a `spon:`-prefixed name. -/
theorem expandSync_events_spon (cfg : Config) (ps : List Pane) (i : Nat) :
    (expandSync cfg ps i).events.all sponNamed = true := by
  unfold expandSync
  cases hps : ps[i]? with
  | none => simp
  | some pane =>
    by_cases hr : pane.isRunning
    · simp [hr]
    · cases hrect : pane.target.rect with
      | none => simp [hr, hrect]
      | some h => simp [hr, hrect, sponNamed]

/-- Every event `collapseSync` emits carries a `spon:`-prefixed name. -/
theorem collapseSync_events_spon (cfg : Config) (ps : List Pane) (i : Nat) :
    (collapseSync cfg ps i).events.all sponNamed = true := by
  unfold collapseSync
  cases hps : ps[i]? with
  | none => simp
  | some pane =>
    by_cases hr : pane.isRunning
    · simp [hr]
    · cases hrect : pane.target.rect with
      | none => simp [hr, hrect]
      | some h => simp [hr, hrect, sponNamed]

/-- Every event `expandComplete` emits carries a `spon:`-prefixed name. -/
theorem expandComplete_events_spon (ps : List Pane) (i : Nat) :
    (expandComplete ps i).events.all sponNamed = true := by
  unfold expandComplete
  cases hps : ps[i]? with
  | none => simp
  | some pane => simp [sponNamed]

/-- Every event `collapseComplete` emits carries a `spon:`-prefixed name. -/
theorem collapseComplete_events_spon (ps : List Pane) (i : Nat) :
    (collapseComplete ps i).events.all sponNamed = true := by
  unfold collapseComplete
  cases hps : ps[i]? with
  | none => simp
  | some pane => simp [sponNamed]

/-- Every event the `closeOthers` branch emits carries a `spon:`-prefixed
name. -/
theorem clickBranch_events_spon (cfg : Config) (ps : List Pane)
    (cur : Option Nat) (i : Nat) :
    (clickBranch cfg ps cur i).events.all sponNamed = true := by
  unfold clickBranch
  cases cur with
  | none => simp
  | some ci =>
    cases h : ps[ci]? with
    | none => simp [h]
    | some c =>
      dsimp only
      rw [h]
      dsimp only
      by_cases hb : (cfg.closeOthers && (c.index != i)) = true
      · rw [if_pos hb]
        exact collapseSync_events_spon cfg
          (ps.set ci { c with state := machineClick c.state }) c.index
      · rw [if_neg hb]; rfl

/-- Events of the dispatch tail are all `spon:`-named whenever the branch's
are. -/
theorem clickDispatch_events_spon (cfg : Config) (branch : SyncResult)
    (cur : Option Nat) (i : Nat)
    (hb : branch.events.all sponNamed = true) :
    (clickDispatch cfg branch cur i).events.all sponNamed = true := by
  unfold clickDispatch
  by_cases ht : branch.threw
  · simp [ht, hb]
  · simp only [ht, Bool.false_eq_true, if_false]
    cases hp : branch.panes[i]? with
    | none => simpa using hb
    | some item2 =>
      by_cases hs : item2.state = PaneState.«open»
      · simp [hs, List.all_append, hb, expandSync_events_spon]
      · simp [hs, List.all_append, hb, collapseSync_events_spon]

/-- Every event `clickHandle` emits carries a `spon:`-prefixed name. -/
theorem clickHandle_events_spon (cfg : Config) (ps : List Pane)
    (cur : Option Nat) (i : Nat) :
    (clickHandle cfg ps cur i).events.all sponNamed = true := by
  unfold clickHandle
  cases hps : ps[i]? with
  | none => simp
  | some item =>
    exact clickDispatch_events_spon cfg _ cur i (clickBranch_events_spon cfg _ cur i)

/-- Events appended by one scheduler step are all `spon:`-named. -/
theorem stepClick_events_spon (w : World) (i : Nat)
    (hw : w.events.all sponNamed = true) :
    (stepClick w i).events.all sponNamed = true := by
  unfold stepClick
  simp only [List.all_append, Bool.and_eq_true]
  exact And.intro hw (clickHandle_events_spon w.cfg w.panes w.current i)

/-- Events appended by one completion step are all `spon:`-named. -/
theorem stepComplete_events_spon (w : World)
    (hw : w.events.all sponNamed = true) :
    (stepComplete w).events.all sponNamed = true := by
  unfold stepComplete
  cases hp : w.pending with
  | nil => exact hw
  | cons c rest =>
    obtain ⟨k, idx⟩ := c
    dsimp only
    cases k with
    | expandK =>
      simp only [List.all_append, Bool.and_eq_true]
      exact And.intro hw (expandComplete_events_spon w.panes idx)
    | collapseK =>
      simp only [List.all_append, Bool.and_eq_true]
      exact And.intro hw (collapseComplete_events_spon w.panes idx)

/-- C7 (amended): over any interleaving of activations and completions, every
event the widget emits is named `spon:open`, `spon:opened`, `spon:close` or
`spon:closed` (the payload shape `(pane, index, panes)` is the `Event`
structure itself). -/
theorem all_events_spon_named (w : World) (acts : List WAction)
    (hw : w.events.all sponNamed = true) :
    (runW w acts).events.all sponNamed = true := by
  induction acts generalizing w with
  | nil => exact hw
  | cons a rest ih =>
    cases a with
    | click i => exact ih (stepClick w i) (stepClick_events_spon w i hw)
    | done => exact ih (stepComplete w) (stepComplete_events_spon w hw)

/-- Witness for the amended C7 on a concrete run. -/
theorem all_events_spon_named_witness :
    (runW w1 [WAction.click 0, WAction.done]).events.all sponNamed = true :=
  all_events_spon_named w1 [WAction.click 0, WAction.done] rfl

/-- C7 (counterexample to the claim as stated): a concrete full expand run
emits events, and not every emitted event is named `open`, `opened`,
`close` or `closed` (they are `spon:`-prefixed instead). -/
theorem event_names_not_bare :
    ((runW w1 [WAction.click 0, WAction.done]).events ≠ []) ∧
    ¬ ((runW w1 [WAction.click 0, WAction.done]).events.all
        (fun e => ["open", "opened", "close", "closed"].contains e.name) = true) := by
  constructor
  · decide
  · decide

/-- The pane value written by the synchronous part of a running expand. -/
def expandedPane (pane : Pane) : Pane :=
  { pane with
    target := { pane.target with
      styleDisplay := "block", styleHeight := "0", styleWillChange := "height" }
    isRunning := true
    «open» := true }

/-- The pane value written by the expand completion continuation. -/
def expandDonePane (pane : Pane) : Pane :=
  { onEnd pane with
    button := { (onEnd pane).button with hasActiveClass := true }
    target := { (onEnd pane).target with hasActiveClass := true } }

/-- The pane value at the moment `spon:close` is emitted (before `isRunning`
is set). -/
def collapseMidPane (pane : Pane) (h : Nat) : Pane :=
  { pane with
    «open» := false
    target := { pane.target with
      styleHeight := toString h ++ "px", styleWillChange := "height" } }

/-- The pane value once the collapse animation has been started. -/
def collapseRunPane (pane : Pane) (h : Nat) : Pane :=
  { collapseMidPane pane h with isRunning := true }

/-- The pane value written by the collapse completion continuation. -/
def collapseDonePane (pane : Pane) : Pane :=
  { onEnd pane with
    button := { (onEnd pane).button with hasActiveClass := false }
    target := { (onEnd pane).target with hasActiveClass := false } }

/-- Value of `expandSync` on an idle pane with a successful measurement. -/
theorem expandSync_run_eq (cfg : Config) (panes : List Pane) (i : Nat)
    (pane : Pane) (h : Nat) (hi : panes[i]? = some pane)
    (hrun : pane.isRunning = false) (hm : pane.target.rect = some h) :
    expandSync cfg panes i =
      { panes := panes.set i (expandedPane pane)
        events := [{ name := "spon:open", pane := expandedPane pane, index := i,
                     panes := panes.set i (expandedPane pane) }]
        anims := [{ start := 0, «end» := h, duration := cfg.duration,
                    easing := cfg.easing, target := i }]
        comps := [{ kind := CompKind.expandK, index := i }]
        threw := false } := by
  unfold expandSync
  rw [hi]
  simp [hrun, hm, expandedPane]

/-- Value of `expandComplete` at a present index. -/
theorem expandComplete_run_eq (ps : List Pane) (i : Nat) (pane : Pane)
    (hi : ps[i]? = some pane) :
    expandComplete ps i =
      { panes := ps.set i (expandDonePane pane)
        events := [{ name := "spon:opened", pane := expandDonePane pane, index := i,
                     panes := ps.set i (expandDonePane pane) }]
        anims := [], comps := [], threw := false } := by
  unfold expandComplete
  rw [hi]
  simp [expandDonePane]

/-- Value of `collapseSync` on an idle pane with a successful measurement:
the `spon:close` payload snapshots the pane before `isRunning` is set. -/
theorem collapseSync_run_eq (cfg : Config) (panes : List Pane) (i : Nat)
    (pane : Pane) (h : Nat) (hi : panes[i]? = some pane)
    (hrun : pane.isRunning = false) (hm : pane.target.rect = some h) :
    collapseSync cfg panes i =
      { panes := (panes.set i (collapseMidPane pane h)).set i (collapseRunPane pane h)
        events := [{ name := "spon:close", pane := collapseMidPane pane h, index := i,
                     panes := panes.set i (collapseMidPane pane h) }]
        anims := [{ start := h, «end» := 0, duration := cfg.duration,
                    easing := cfg.easing, target := i }]
        comps := [{ kind := CompKind.collapseK, index := i }]
        threw := false } := by
  unfold collapseSync
  rw [hi]
  simp [hrun, hm, collapseMidPane, collapseRunPane]

/-- Value of `collapseComplete` at a present index. -/
theorem collapseComplete_run_eq (ps : List Pane) (i : Nat) (pane : Pane)
    (hi : ps[i]? = some pane) :
    collapseComplete ps i =
      { panes := ps.set i (collapseDonePane pane)
        events := [{ name := "spon:closed", pane := collapseDonePane pane, index := i,
                     panes := ps.set i (collapseDonePane pane) }]
        anims := [], comps := [], threw := false } := by
  unfold collapseComplete
  rw [hi]
  simp [collapseDonePane]

/-- C5: on a valid, idle pane whose measurement yields `h`, `expand(i)` marks
the pane running and open, emits the pre-open event `spon:open` with payload
(pane, index, full registry) before the animation, starts the animator from
0 to the measured height with the configured duration and easing, and its
completion clears the transient layout overrides, clears `isRunning`, and
emits the post-open event `spon:opened`. -/
theorem expand_contract (cfg : Config) (panes : List Pane) (i : Nat)
    (pane : Pane) (h : Nat) (hi : panes[i]? = some pane)
    (hrun : pane.isRunning = false) (hm : pane.target.rect = some h) :
    (expandSync cfg panes i).threw = false ∧
    (∃ pane2, (expandSync cfg panes i).panes[i]? = some pane2 ∧
      pane2.isRunning = true ∧ pane2.«open» = true ∧
      (expandSync cfg panes i).events =
        [{ name := "spon:open", pane := pane2, index := i,
           panes := (expandSync cfg panes i).panes }] ∧
      (expandSync cfg panes i).anims =
        [{ start := 0, «end» := h, duration := cfg.duration,
           easing := cfg.easing, target := i }]) ∧
    (∃ pane3, (expandComplete (expandSync cfg panes i).panes i).panes[i]? = some pane3 ∧
      pane3.isRunning = false ∧
      pane3.target.styleHeight = "" ∧
      pane3.target.styleDisplay = "" ∧
      pane3.target.styleWillChange = "" ∧
      (expandComplete (expandSync cfg panes i).panes i).events =
        [{ name := "spon:opened", pane := pane3, index := i,
           panes := (expandComplete (expandSync cfg panes i).panes i).panes }]) := by
  have hlen : i < panes.length := by
    rcases List.getElem?_eq_some.mp hi with ⟨hlt, _⟩
    exact hlt
  have hrun1 := expandSync_run_eq cfg panes i pane h hi hrun hm
  have hget1 : (expandSync cfg panes i).panes[i]? = some (expandedPane pane) := by
    rw [hrun1]
    exact List.getElem?_set_self hlen
  have hrun2 := expandComplete_run_eq (expandSync cfg panes i).panes i
    (expandedPane pane) hget1
  have hlen2 : i < (expandSync cfg panes i).panes.length := by
    rw [hrun1]
    simpa using hlen
  have hget2 : (expandComplete (expandSync cfg panes i).panes i).panes[i]? =
      some (expandDonePane (expandedPane pane)) := by
    rw [hrun2]
    exact List.getElem?_set_self hlen2
  refine ⟨by rw [hrun1], ⟨expandedPane pane, hget1, rfl, rfl, ?_, ?_⟩,
    ⟨expandDonePane (expandedPane pane), hget2, rfl, rfl, rfl, rfl, ?_⟩⟩
  · rw [hrun1]
  · rw [hrun1]
  · rw [hrun2]

/-- Witness for C5 at a concrete one-pane registry. -/
theorem expand_contract_witness :
    (expandSync cfgW [paneIdle] 0).threw = false ∧
    (∃ pane2, (expandSync cfgW [paneIdle] 0).panes[0]? = some pane2 ∧
      pane2.isRunning = true ∧ pane2.«open» = true ∧
      (expandSync cfgW [paneIdle] 0).events =
        [{ name := "spon:open", pane := pane2, index := 0,
           panes := (expandSync cfgW [paneIdle] 0).panes }] ∧
      (expandSync cfgW [paneIdle] 0).anims =
        [{ start := 0, «end» := 5, duration := cfgW.duration,
           easing := cfgW.easing, target := 0 }]) ∧
    (∃ pane3, (expandComplete (expandSync cfgW [paneIdle] 0).panes 0).panes[0]? = some pane3 ∧
      pane3.isRunning = false ∧
      pane3.target.styleHeight = "" ∧
      pane3.target.styleDisplay = "" ∧
      pane3.target.styleWillChange = "" ∧
      (expandComplete (expandSync cfgW [paneIdle] 0).panes 0).events =
        [{ name := "spon:opened", pane := pane3, index := 0,
           panes := (expandComplete (expandSync cfgW [paneIdle] 0).panes 0).panes }]) :=
  expand_contract cfgW [paneIdle] 0 paneIdle 5 rfl rfl rfl

/-- C8: starting from the post-init baseline (no inline height, display or
will-change overrides) on a valid idle pane, `expand(i)` awaited to
completion and then `collapse(i)` awaited to completion each actually run
(each starts exactly one animation), and the round trip is an identity on
the three transient style overrides: they end equal to their pre-expand
values. -/
theorem expand_collapse_roundtrip (cfg : Config) (panes : List Pane) (i : Nat)
    (pane : Pane) (h : Nat) (hi : panes[i]? = some pane)
    (hrun : pane.isRunning = false) (hm : pane.target.rect = some h)
    (hbh : pane.target.styleHeight = "")
    (hbd : pane.target.styleDisplay = "")
    (hbw : pane.target.styleWillChange = "") :
    (expandSync cfg panes i).comps = [{ kind := CompKind.expandK, index := i }] ∧
    (collapseSync cfg (expandComplete (expandSync cfg panes i).panes i).panes i).comps =
      [{ kind := CompKind.collapseK, index := i }] ∧
    ∃ pane4,
      (collapseComplete
        (collapseSync cfg (expandComplete (expandSync cfg panes i).panes i).panes i).panes
        i).panes[i]? = some pane4 ∧
      pane4.target.styleHeight = pane.target.styleHeight ∧
      pane4.target.styleDisplay = pane.target.styleDisplay ∧
      pane4.target.styleWillChange = pane.target.styleWillChange ∧
      pane4.isRunning = false := by
  have hlen : i < panes.length := by
    rcases List.getElem?_eq_some.mp hi with ⟨hlt, _⟩
    exact hlt
  have he1 := expandSync_run_eq cfg panes i pane h hi hrun hm
  have hget1 : (expandSync cfg panes i).panes[i]? = some (expandedPane pane) := by
    rw [he1]
    exact List.getElem?_set_self hlen
  have he2 := expandComplete_run_eq (expandSync cfg panes i).panes i
    (expandedPane pane) hget1
  have hlen2 : i < (expandSync cfg panes i).panes.length := by
    rw [he1]; simpa using hlen
  have hget2 : (expandComplete (expandSync cfg panes i).panes i).panes[i]? =
      some (expandDonePane (expandedPane pane)) := by
    rw [he2]
    exact List.getElem?_set_self hlen2
  have hrun2 : (expandDonePane (expandedPane pane)).isRunning = false := rfl
  have hm2 : (expandDonePane (expandedPane pane)).target.rect = some h := by
    simpa [expandDonePane, expandedPane, onEnd] using hm
  have he3 := collapseSync_run_eq cfg (expandComplete (expandSync cfg panes i).panes i).panes
    i (expandDonePane (expandedPane pane)) h hget2 hrun2 hm2
  have hlen3 : i < (expandComplete (expandSync cfg panes i).panes i).panes.length := by
    rw [he2]; simpa using hlen2
  have hget3 :
      (collapseSync cfg (expandComplete (expandSync cfg panes i).panes i).panes i).panes[i]? =
      some (collapseRunPane (expandDonePane (expandedPane pane)) h) := by
    rw [he3]
    exact List.getElem?_set_self (by simpa using hlen3)
  have he4 := collapseComplete_run_eq
    (collapseSync cfg (expandComplete (expandSync cfg panes i).panes i).panes i).panes i
    (collapseRunPane (expandDonePane (expandedPane pane)) h) hget3
  have hlen4 :
      i < (collapseSync cfg (expandComplete (expandSync cfg panes i).panes i).panes i).panes.length := by
    rw [he3]; simpa using hlen3
  refine ⟨by rw [he1], by rw [he3], ?_⟩
  refine ⟨collapseDonePane (collapseRunPane (expandDonePane (expandedPane pane)) h), ?_, ?_, ?_, ?_, rfl⟩
  · rw [he4]
    exact List.getElem?_set_self hlen4
  · rw [hbh]; rfl
  · rw [hbd]; rfl
  · rw [hbw]; rfl

/-- Witness for C8 at a concrete one-pane registry. -/
theorem expand_collapse_roundtrip_witness :
    (expandSync cfgW [paneIdle] 0).comps = [{ kind := CompKind.expandK, index := 0 }] ∧
    (collapseSync cfgW (expandComplete (expandSync cfgW [paneIdle] 0).panes 0).panes 0).comps =
      [{ kind := CompKind.collapseK, index := 0 }] ∧
    ∃ pane4,
      (collapseComplete
        (collapseSync cfgW (expandComplete (expandSync cfgW [paneIdle] 0).panes 0).panes 0).panes
        0).panes[0]? = some pane4 ∧
      pane4.target.styleHeight = paneIdle.target.styleHeight ∧
      pane4.target.styleDisplay = paneIdle.target.styleDisplay ∧
      pane4.target.styleWillChange = paneIdle.target.styleWillChange ∧
      pane4.isRunning = false :=
  expand_collapse_roundtrip cfgW [paneIdle] 0 paneIdle 5 rfl rfl rfl rfl rfl rfl

/-- The `index` field observed at a registry position. -/
def idxAt (ps : List Pane) (k : Nat) : Option Nat := (ps[k]?).map Pane.index

/-- The `state` field observed at a registry position. -/
def stAt (ps : List Pane) (k : Nat) : Option PaneState := (ps[k]?).map Pane.state

/-- Writing a pane that keeps `index` and `state` changes neither observation
anywhere. -/
theorem obsAt_set_of_same (ps : List Pane) (j : Nat) (pane p' : Pane)
    (hps : ps[j]? = some pane) (hidx : p'.index = pane.index)
    (hst : p'.state = pane.state) :
    ∀ k, idxAt (ps.set j p') k = idxAt ps k ∧ stAt (ps.set j p') k = stAt ps k := by
  intro k
  by_cases hkj : k = j
  · subst hkj
    have hlen : k < ps.length := (List.getElem?_eq_some.mp hps).1
    simp [idxAt, stAt, List.getElem?_set_self hlen, hps, hidx, hst]
  · simp [idxAt, stAt, List.getElem?_set_ne (fun hh => hkj hh.symm)]

/-- `expand` never changes any pane's `index` or `state`. -/
theorem expandSync_obs (cfg : Config) (ps : List Pane) (j k : Nat) :
    idxAt (expandSync cfg ps j).panes k = idxAt ps k ∧
    stAt (expandSync cfg ps j).panes k = stAt ps k := by
  unfold expandSync
  cases hps : ps[j]? with
  | none => exact ⟨rfl, rfl⟩
  | some pane =>
    dsimp only
    by_cases hr : pane.isRunning = true
    · rw [if_pos hr]
      exact ⟨rfl, rfl⟩
    · rw [if_neg hr]
      cases hrect : pane.target.rect with
      | none =>
        dsimp only
        exact obsAt_set_of_same ps j pane
          { pane with target := { pane.target with styleDisplay := "block", rect := none } }
          hps rfl rfl k
      | some h =>
        dsimp only
        exact obsAt_set_of_same ps j pane
          { pane with
            target := { pane.target with
              styleHeight := "0"
              styleDisplay := "block"
              styleWillChange := "height"
              rect := some h }
            «open» := true
            isRunning := true }
          hps rfl rfl k

/-- `collapse` never changes any pane's `index` or `state`. -/
theorem collapseSync_obs (cfg : Config) (ps : List Pane) (j k : Nat) :
    idxAt (collapseSync cfg ps j).panes k = idxAt ps k ∧
    stAt (collapseSync cfg ps j).panes k = stAt ps k := by
  unfold collapseSync
  cases hps : ps[j]? with
  | none => exact ⟨rfl, rfl⟩
  | some pane =>
    dsimp only
    by_cases hr : pane.isRunning = true
    · rw [if_pos hr]
      exact ⟨rfl, rfl⟩
    · rw [if_neg hr]
      cases hrect : pane.target.rect with
      | none =>
        dsimp only
        exact obsAt_set_of_same ps j pane { pane with «open» := false } hps rfl rfl k
      | some h =>
        dsimp only
        have hlen : j < ps.length := (List.getElem?_eq_some.mp hps).1
        have h2 := obsAt_set_of_same ps j pane
          { pane with
            «open» := false
            target := { pane.target with
              styleHeight := toString h ++ "px"
              styleWillChange := "height"
              rect := some h } }
          hps rfl rfl
        have hget2 : (ps.set j
            { pane with
              «open» := false
              target := { pane.target with
                styleHeight := toString h ++ "px"
                styleWillChange := "height"
                rect := some h } })[j]? = some
            { pane with
              «open» := false
              target := { pane.target with
                styleHeight := toString h ++ "px"
                styleWillChange := "height"
                rect := some h } } :=
          List.getElem?_set_self hlen
        have h3 := obsAt_set_of_same _ j _
          { pane with
            «open» := false
            isRunning := true
            target := { pane.target with
              styleHeight := toString h ++ "px"
              styleWillChange := "height"
              rect := some h } }
          hget2 rfl rfl
        exact ⟨(h3 k).1.trans (h2 k).1, (h3 k).2.trans (h2 k).2⟩

/-- The expand completion continuation never changes `index` or `state`. -/
theorem expandComplete_obs (ps : List Pane) (j k : Nat) :
    idxAt (expandComplete ps j).panes k = idxAt ps k ∧
    stAt (expandComplete ps j).panes k = stAt ps k := by
  unfold expandComplete
  cases hps : ps[j]? with
  | none => exact ⟨rfl, rfl⟩
  | some pane =>
    dsimp only
    exact obsAt_set_of_same ps j pane
      { onEnd pane with
        button := { (onEnd pane).button with hasActiveClass := true }
        target := { (onEnd pane).target with hasActiveClass := true } }
      hps rfl rfl k

/-- The collapse completion continuation never changes `index` or `state`. -/
theorem collapseComplete_obs (ps : List Pane) (j k : Nat) :
    idxAt (collapseComplete ps j).panes k = idxAt ps k ∧
    stAt (collapseComplete ps j).panes k = stAt ps k := by
  unfold collapseComplete
  cases hps : ps[j]? with
  | none => exact ⟨rfl, rfl⟩
  | some pane =>
    dsimp only
    exact obsAt_set_of_same ps j pane
      { onEnd pane with
        button := { (onEnd pane).button with hasActiveClass := false }
        target := { (onEnd pane).target with hasActiveClass := false } }
      hps rfl rfl k

/-- `expand(j)` leaves every other registry position untouched. -/
theorem expandSync_panes_other (cfg : Config) (ps : List Pane) (j k : Nat)
    (hkj : k ≠ j) : (expandSync cfg ps j).panes[k]? = ps[k]? := by
  unfold expandSync
  cases hps : ps[j]? with
  | none => rfl
  | some pane =>
    dsimp only
    by_cases hr : pane.isRunning = true
    · rw [if_pos hr]
    · rw [if_neg hr]
      cases hrect : pane.target.rect with
      | none =>
        dsimp only
        exact List.getElem?_set_ne (fun hh => hkj hh.symm)
      | some h =>
        dsimp only
        exact List.getElem?_set_ne (fun hh => hkj hh.symm)

/-- `collapse(j)` leaves every other registry position untouched. -/
theorem collapseSync_panes_other (cfg : Config) (ps : List Pane) (j k : Nat)
    (hkj : k ≠ j) : (collapseSync cfg ps j).panes[k]? = ps[k]? := by
  unfold collapseSync
  cases hps : ps[j]? with
  | none => rfl
  | some pane =>
    dsimp only
    by_cases hr : pane.isRunning = true
    · rw [if_pos hr]
    · rw [if_neg hr]
      cases hrect : pane.target.rect with
      | none =>
        dsimp only
        exact List.getElem?_set_ne (fun hh => hkj hh.symm)
      | some h =>
        dsimp only
        rw [List.getElem?_set_ne (fun hh => hkj hh.symm),
            List.getElem?_set_ne (fun hh => hkj hh.symm)]

/-- The expand completion leaves every other registry position untouched. -/
theorem expandComplete_panes_other (ps : List Pane) (j k : Nat)
    (hkj : k ≠ j) : (expandComplete ps j).panes[k]? = ps[k]? := by
  unfold expandComplete
  cases hps : ps[j]? with
  | none => rfl
  | some pane =>
    dsimp only
    exact List.getElem?_set_ne (fun hh => hkj hh.symm)

/-- The collapse completion leaves every other registry position untouched. -/
theorem collapseComplete_panes_other (ps : List Pane) (j k : Nat)
    (hkj : k ≠ j) : (collapseComplete ps j).panes[k]? = ps[k]? := by
  unfold collapseComplete
  cases hps : ps[j]? with
  | none => rfl
  | some pane =>
    dsimp only
    exact List.getElem?_set_ne (fun hh => hkj hh.symm)

/-- `expand` on a running pane returns everything unchanged. -/
theorem expandSync_noop_of_running (cfg : Config) (ps : List Pane) (j : Nat)
    (pane : Pane) (hps : ps[j]? = some pane) (hr : pane.isRunning = true) :
    expandSync cfg ps j =
      { panes := ps, events := [], anims := [], comps := [], threw := false } := by
  unfold expandSync
  rw [hps]
  simp [hr]

/-- `collapse` on a running pane returns everything unchanged. -/
theorem collapseSync_noop_of_running (cfg : Config) (ps : List Pane) (j : Nat)
    (pane : Pane) (hps : ps[j]? = some pane) (hr : pane.isRunning = true) :
    collapseSync cfg ps j =
      { panes := ps, events := [], anims := [], comps := [], threw := false } := by
  unfold collapseSync
  rw [hps]
  simp [hr]

/-- Writing a pane with the same `index` field changes no index observation. -/
theorem idxAt_set_of_same_idx (ps : List Pane) (j : Nat) (pane p' : Pane)
    (hps : ps[j]? = some pane) (hidx : p'.index = pane.index) :
    ∀ k, idxAt (ps.set j p') k = idxAt ps k := by
  intro k
  by_cases hkj : k = j
  · subst hkj
    have hlen : k < ps.length := (List.getElem?_eq_some.mp hps).1
    simp [idxAt, List.getElem?_set_self hlen, hps, hidx]
  · simp [idxAt, List.getElem?_set_ne (fun hh => hkj hh.symm)]

/-- Every event `collapse(j)` emits carries index `j`. -/
theorem collapseSync_events_index (cfg : Config) (ps : List Pane) (j : Nat) :
    (collapseSync cfg ps j).events.all (fun e => e.index == j) = true := by
  unfold collapseSync
  cases hps : ps[j]? with
  | none => rfl
  | some pane =>
    dsimp only
    by_cases hr : pane.isRunning = true
    · rw [if_pos hr]; rfl
    · rw [if_neg hr]
      cases hrect : pane.target.rect with
      | none => rfl
      | some h => simp

/-- Every animation `collapse(j)` starts targets pane `j`. -/
theorem collapseSync_anims_target (cfg : Config) (ps : List Pane) (j : Nat) :
    (collapseSync cfg ps j).anims.all (fun a => a.target == j) = true := by
  unfold collapseSync
  cases hps : ps[j]? with
  | none => rfl
  | some pane =>
    dsimp only
    by_cases hr : pane.isRunning = true
    · rw [if_pos hr]; rfl
    · rw [if_neg hr]
      cases hrect : pane.target.rect with
      | none => rfl
      | some h => simp

/-- The `closeOthers` branch never touches the clicked position, preserves
every `index` field, and emits events and animations only for other pane
indices. -/
theorem clickBranch_spec (cfg : Config) (ps1 : List Pane) (cur : Option Nat)
    (i : Nat) (hwell1 : ∀ (j : Nat) (q : Pane), ps1[j]? = some q → q.index = j) :
    (clickBranch cfg ps1 cur i).panes[i]? = ps1[i]? ∧
    (∀ k, idxAt (clickBranch cfg ps1 cur i).panes k = idxAt ps1 k) ∧
    (clickBranch cfg ps1 cur i).events.all (fun e => e.index != i) = true ∧
    (clickBranch cfg ps1 cur i).anims.all (fun a => a.target != i) = true := by
  unfold clickBranch
  cases cur with
  | none => exact ⟨rfl, fun k => rfl, rfl, rfl⟩
  | some ci =>
    dsimp only
    cases hci : ps1[ci]? with
    | none => exact ⟨rfl, fun k => rfl, rfl, rfl⟩
    | some c =>
      dsimp only
      by_cases hcond : (cfg.closeOthers && (c.index != i)) = true
      · rw [if_pos hcond]
        have hcidx : c.index = ci := hwell1 ci c hci
        have hne : c.index ≠ i := by
          have h2 := (Bool.and_eq_true _ _).mp hcond
          simpa using h2.2
        have hcine : ci ≠ i := hcidx ▸ hne
        have hlen : ci < ps1.length := (List.getElem?_eq_some.mp hci).1
        set cur1 : Pane := { c with state := machineClick c.state } with hcur1
        have hget : (ps1.set ci cur1)[ci]? = some cur1 := List.getElem?_set_self hlen
        refine ⟨?_, ?_, ?_, ?_⟩
        · rw [hcidx]
          rw [collapseSync_panes_other cfg _ ci i (fun hh => hcine hh.symm)]
          exact List.getElem?_set_ne hcine
        · intro k
          rw [hcidx]
          exact ((collapseSync_obs cfg _ ci k).1).trans
            (idxAt_set_of_same_idx ps1 ci c cur1 hci rfl k)
        · have hall := collapseSync_events_index cfg (ps1.set ci cur1) c.index
          rw [List.all_eq_true] at hall ⊢
          intro e he
          have := hall e he
          have heq : e.index = c.index := by simpa using this
          simpa [heq] using hne
        · have hall := collapseSync_anims_target cfg (ps1.set ci cur1) c.index
          rw [List.all_eq_true] at hall ⊢
          intro a ha
          have := hall a ha
          have heq : a.target = c.index := by simpa using this
          simpa [heq] using hne
      · rw [if_neg hcond]
        exact ⟨rfl, fun k => rfl, rfl, rfl⟩

/-- When the clicked pane is mid-animation, the dispatch tail changes
nothing beyond what the branch already did. -/
theorem clickDispatch_spec_running (cfg : Config) (branch : SyncResult)
    (current : Option Nat) (i : Nat) (item2 : Pane)
    (hb : branch.panes[i]? = some item2) (hr : item2.isRunning = true) :
    (clickDispatch cfg branch current i).panes = branch.panes ∧
    (clickDispatch cfg branch current i).events = branch.events ∧
    (clickDispatch cfg branch current i).anims = branch.anims := by
  unfold clickDispatch
  by_cases ht : branch.threw = true
  · rw [if_pos ht]
    exact ⟨rfl, rfl, rfl⟩
  · rw [if_neg ht, hb]
    dsimp only
    by_cases hs : item2.state = PaneState.«open»
    · rw [if_pos hs, expandSync_noop_of_running cfg branch.panes i item2 hb hr]
      exact ⟨rfl, by simp, by simp⟩
    · rw [if_neg hs, collapseSync_noop_of_running cfg branch.panes i item2 hb hr]
      exact ⟨rfl, by simp, by simp⟩

/-- C9: an activation arriving while the clicked pane's animation is in
flight still advances that pane's `state` through the machine table (the
toggle happens before the `isRunning` guard is consulted), while the pane's
`open` and `isRunning` fields are unchanged and no event or animation is
produced for that pane — so `state` can disagree with `open`. -/
theorem click_during_flight_flips_state_only (cfg : Config) (panes : List Pane)
    (current : Option Nat) (i : Nat) (pane : Pane)
    (hi : panes[i]? = some pane) (hrun : pane.isRunning = true)
    (hwell : ∀ (j : Nat) (q : Pane), panes[j]? = some q → q.index = j) :
    ∃ pane1, (clickHandle cfg panes current i).panes[i]? = some pane1 ∧
      pane1.state = machineClick pane.state ∧
      pane1.«open» = pane.«open» ∧
      pane1.isRunning = pane.isRunning ∧
      (clickHandle cfg panes current i).events.all (fun e => e.index != i) = true ∧
      (clickHandle cfg panes current i).anims.all (fun a => a.target != i) = true := by
  have hlen : i < panes.length := (List.getElem?_eq_some.mp hi).1
  set item1 : Pane := { pane with state := machineClick pane.state } with hitem1
  have hwell1 : ∀ (j : Nat) (q : Pane), (panes.set i item1)[j]? = some q → q.index = j := by
    intro j q hq
    by_cases hji : j = i
    · subst hji
      rw [List.getElem?_set_self hlen] at hq
      cases hq
      exact hwell j pane hi
    · rw [List.getElem?_set_ne (fun hh => hji hh.symm)] at hq
      exact hwell j q hq
  have hbr := clickBranch_spec cfg (panes.set i item1) current i hwell1
  have hbi : (clickBranch cfg (panes.set i item1) current i).panes[i]? = some item1 := by
    rw [hbr.1]
    exact List.getElem?_set_self hlen
  have hdisp := clickDispatch_spec_running cfg
    (clickBranch cfg (panes.set i item1) current i) current i item1 hbi hrun
  have hch : clickHandle cfg panes current i =
      clickDispatch cfg (clickBranch cfg (panes.set i item1) current i) current i := by
    unfold clickHandle
    rw [hi]
  refine ⟨item1, ?_, rfl, rfl, rfl, ?_, ?_⟩
  · rw [hch, hdisp.1]
    exact hbi
  · rw [hch, hdisp.2.1]
    exact hbr.2.2.1
  · rw [hch, hdisp.2.2]
    exact hbr.2.2.2

/-- Witness for C9 at a concrete busy pane: the state flips to `open` while
`open`/`isRunning` stay put and nothing is emitted. -/
theorem click_during_flight_flips_state_only_witness :
    ∃ pane1, (clickHandle cfgW [paneBusy] none 0).panes[0]? = some pane1 ∧
      pane1.state = machineClick paneBusy.state ∧
      pane1.«open» = paneBusy.«open» ∧
      pane1.isRunning = paneBusy.isRunning ∧
      (clickHandle cfgW [paneBusy] none 0).events.all (fun e => e.index != 0) = true ∧
      (clickHandle cfgW [paneBusy] none 0).anims.all (fun a => a.target != 0) = true :=
  click_during_flight_flips_state_only cfgW [paneBusy] none 0 paneBusy rfl rfl
    (by
      intro j q hq
      match j with
      | 0 =>
        simp only [List.getElem?_cons_zero, Option.some.injEq] at hq
        rw [← hq]
        rfl
      | n + 1 =>
        simp at hq)

/-- Every pane's `index` field equals its registry position. -/
def wellIndexed (ps : List Pane) : Prop :=
  ∀ (j : Nat) (q : Pane), ps[j]? = some q → q.index = j

/-- Decidable check of `wellIndexed`, for concrete registries. -/
def wellIndexedB (ps : List Pane) : Bool :=
  (List.range ps.length).all (fun j =>
    match ps[j]? with
    | some q => q.index == j
    | none => true)

/-- The Bool check implies the Prop form. -/
theorem wellIndexedB_spec (ps : List Pane) (hw : wellIndexedB ps = true) :
    wellIndexed ps := by
  intro j q hq
  have hlen : j < ps.length := (List.getElem?_eq_some.mp hq).1
  have h := List.all_eq_true.mp hw j (List.mem_range.mpr hlen)
  rw [hq] at h
  simpa using h

/-- Pointwise equal index observations transport `wellIndexed`. -/
theorem wellIndexed_of_idxAt_eq (ps ps' : List Pane)
    (h : ∀ k, idxAt ps' k = idxAt ps k) (hw : wellIndexed ps) :
    wellIndexed ps' := by
  intro j q hq
  have hj : idxAt ps' j = some q.index := by simp [idxAt, hq]
  rw [h j] at hj
  unfold idxAt at hj
  cases hps : ps[j]? with
  | none => rw [hps] at hj; simp at hj
  | some q' =>
    rw [hps] at hj
    simp only [Option.map_some', Option.some.injEq] at hj
    rw [← hj]
    exact hw j q' hps

/-- The dispatch tail preserves every pane's `index` and `state`. -/
theorem clickDispatch_obs (cfg : Config) (branch : SyncResult)
    (cur : Option Nat) (i k : Nat) :
    idxAt (clickDispatch cfg branch cur i).panes k = idxAt branch.panes k ∧
    stAt (clickDispatch cfg branch cur i).panes k = stAt branch.panes k := by
  unfold clickDispatch
  by_cases ht : branch.threw = true
  · rw [if_pos ht]
    exact ⟨rfl, rfl⟩
  · rw [if_neg ht]
    cases hbi : branch.panes[i]? with
    | none => exact ⟨rfl, rfl⟩
    | some item2 =>
      dsimp only
      by_cases hs : item2.state = PaneState.«open»
      · rw [if_pos hs]
        exact expandSync_obs cfg branch.panes i k
      · rw [if_neg hs]
        exact collapseSync_obs cfg branch.panes i k

/-- `clickHandle` preserves every pane's `index` field and advances the
clicked pane's `state` through the machine exactly once. -/
theorem clickHandle_obs (cfg : Config) (ps : List Pane) (cur : Option Nat)
    (i : Nat) (hw : wellIndexed ps) :
    (∀ k, idxAt (clickHandle cfg ps cur i).panes k = idxAt ps k) ∧
    stAt (clickHandle cfg ps cur i).panes i = (stAt ps i).map machineClick := by
  unfold clickHandle
  cases hps : ps[i]? with
  | none =>
    refine ⟨fun k => rfl, ?_⟩
    simp [stAt, hps]
  | some item =>
    dsimp only
    set item1 : Pane := { item with state := machineClick item.state } with hitem1
    have hlen : i < ps.length := (List.getElem?_eq_some.mp hps).1
    have hw1 : wellIndexed (ps.set i item1) :=
      wellIndexed_of_idxAt_eq ps _ (idxAt_set_of_same_idx ps i item item1 hps rfl) hw
    have hbr := clickBranch_spec cfg (ps.set i item1) cur i hw1
    have hdi := fun k => clickDispatch_obs cfg
      (clickBranch cfg (ps.set i item1) cur i) cur i k
    constructor
    · intro k
      rw [(hdi k).1, hbr.2.1 k, idxAt_set_of_same_idx ps i item item1 hps rfl k]
    · rw [(hdi i).2]
      have hst : stAt (clickBranch cfg (ps.set i item1) cur i).panes i =
          stAt (ps.set i item1) i := by
        unfold stAt
        rw [hbr.1]
      rw [hst]
      unfold stAt
      rw [List.getElem?_set_self hlen, hps]
      rfl

/-- A completion step preserves every pane's `index` and `state`. -/
theorem stepComplete_obs (w : World) (k : Nat) :
    idxAt (stepComplete w).panes k = idxAt w.panes k ∧
    stAt (stepComplete w).panes k = stAt w.panes k := by
  unfold stepComplete
  cases hp : w.pending with
  | nil => exact ⟨rfl, rfl⟩
  | cons c rest =>
    obtain ⟨kc, idx⟩ := c
    cases kc with
    | expandK => exact expandComplete_obs w.panes idx k
    | collapseK => exact collapseComplete_obs w.panes idx k

/-- Number of clicks in a scheduler action list. -/
def countClicks : List WAction → Nat
  | [] => 0
  | WAction.click _ :: rest => countClicks rest + 1
  | WAction.done :: rest => countClicks rest

/-- Over any interleaving whose clicks all target pane `i`, the pane's state
is the machine iterated once per click, and all index fields survive. -/
theorem runW_state_iterate (acts : List WAction) (w : World) (i : Nat)
    (hw : wellIndexed w.panes)
    (hacts : acts.all (fun a => a == WAction.done || a == WAction.click i) = true) :
    stAt (runW w acts).panes i =
      (stAt w.panes i).map (fun s => machineClick^[countClicks acts] s) ∧
    wellIndexed (runW w acts).panes := by
  induction acts generalizing w with
  | nil =>
    constructor
    · simp [runW, countClicks]
    · exact hw
  | cons a rest ih =>
    have hall : ((fun a => a == WAction.done || a == WAction.click i) a = true) ∧
        (rest.all (fun a => a == WAction.done || a == WAction.click i) = true) := by
      have h0 := hacts
      rw [List.all_cons, Bool.and_eq_true] at h0
      exact h0
    cases a with
    | done =>
      have hstep := stepComplete_obs w
      have hwell' : wellIndexed (stepComplete w).panes :=
        wellIndexed_of_idxAt_eq w.panes _ (fun k => (hstep k).1) hw
      have hrec := ih (stepComplete w) hwell' hall.2
      refine ⟨?_, hrec.2⟩
      rw [show runW w (WAction.done :: rest) = runW (stepComplete w) rest from rfl,
        hrec.1, (hstep i).2]
      rfl
    | click j =>
      have hj : j = i := by
        have := hall.1
        simp only [Bool.or_eq_true, beq_iff_eq] at this
        rcases this with h1 | h2
        · cases h1
        · exact WAction.click.inj h2
      subst hj
      have hcl := clickHandle_obs w.cfg w.panes w.current j hw
      have hstep1 : (stepClick w j).panes = (clickHandle w.cfg w.panes w.current j).panes := rfl
      have hwell' : wellIndexed (stepClick w j).panes := by
        rw [hstep1]
        exact wellIndexed_of_idxAt_eq w.panes _ hcl.1 hw
      have hrec := ih (stepClick w j) hwell' hall.2
      refine ⟨?_, hrec.2⟩
      rw [show runW w (WAction.click j :: rest) = runW (stepClick w j) rest from rfl,
        hrec.1, hstep1, hcl.2]
      rw [Option.map_map]
      cases hsi : stAt w.panes j with
      | none => rfl
      | some s =>
        simp only [Option.map_some', Option.some.injEq, countClicks]
        exact (Function.iterate_succ_apply machineClick (countClicks rest) s).symm

/-- C2: the per-pane table maps `open` and `close` to each other only (so no
value outside the two states is reachable and each activation strictly
alternates the state), and over any sequence of activations of pane `i`,
however interleaved with animation completions, the pane's `state` is the
table iterated once per activation. -/
theorem state_strictly_alternates (w : World) (i : Nat) (pane : Pane)
    (acts : List WAction) (hi : w.panes[i]? = some pane)
    (hw : wellIndexedB w.panes = true)
    (hacts : acts.all (fun a => a == WAction.done || a == WAction.click i) = true) :
    (∀ s : PaneState, machineClick s ≠ s ∧ machineClick (machineClick s) = s) ∧
    ∃ pane', (runW w acts).panes[i]? = some pane' ∧
      pane'.state = machineClick^[countClicks acts] pane.state := by
  have hrun := runW_state_iterate acts w i (wellIndexedB_spec w.panes hw) hacts
  have hst : stAt (runW w acts).panes i =
      some (machineClick^[countClicks acts] pane.state) := by
    rw [hrun.1]
    simp [stAt, hi]
  constructor
  · intro s
    cases s <;> exact ⟨by decide, by decide⟩
  · unfold stAt at hst
    rcases Option.map_eq_some'.mp hst with ⟨pane', hget, hstate⟩
    exact ⟨pane', hget, hstate⟩

/-- Witness for C2: three activations of pane 0 interleaved with
completions land on `machineClick` iterated three times. -/
theorem state_strictly_alternates_witness :
    (∀ s : PaneState, machineClick s ≠ s ∧ machineClick (machineClick s) = s) ∧
    ∃ pane', (runW w1 [WAction.click 0, WAction.done, WAction.click 0,
        WAction.done, WAction.click 0]).panes[0]? = some pane' ∧
      pane'.state = machineClick^[countClicks [WAction.click 0, WAction.done,
        WAction.click 0, WAction.done, WAction.click 0]]
        (createPane false none (some 5) 0).state :=
  state_strictly_alternates w1 0 (createPane false none (some 5) 0)
    [WAction.click 0, WAction.done, WAction.click 0, WAction.done, WAction.click 0]
    rfl rfl rfl

/-- C3 (failing run): with `closeOthers` on, clicking pane 0 and then pane 1
before pane 0's expand animation completes leaves the stale `collapse(0)`
silently skipped by the `isRunning` guard; after every animation has
settled (no pending completions, nothing thrown), both panes have
`open = true`. -/
theorem closeOthers_two_open_after_settle :
    (runW w2 [WAction.click 0, WAction.click 1, WAction.done, WAction.done]).pending = [] ∧
    (runW w2 [WAction.click 0, WAction.click 1, WAction.done, WAction.done]).threw = false ∧
    openCount (runW w2 [WAction.click 0, WAction.click 1, WAction.done,
      WAction.done]).panes = 2 := by
  refine ⟨by decide, by decide, by decide⟩
